import Mathlib

/-!
Verification development for the restaurant-menu backend (`backend/main.py`).

The menu store keeps a process-wide list `menu_data` of menu items and
persists it to `menu.json` after every mutation.  We embed each endpoint
handler as a pure function from the in-memory collection (a `List MenuItem`)
and an explicit `writeOk : Bool` flag (whether the `json.dump` to `menu.json`
succeeds) to the successor collection paired with the handler's outcome.
The chat endpoint is embedded with each provider's external call modelled as
a function from the message history to an outcome (the reply text, or a
raised error).
-/

namespace Tastegent

/-- `MenuItem` from `main.py`: id, name, description, price, tags, imageUrl
(optional).  `price` is a Python float carrying values such as `13.37`; the
store never computes with it, only copies it, so we carry it as `Rat`. -/
structure MenuItem where
  id : Int
  name : String
  description : String
  price : Rat
  tags : List String
  imageUrl : Option String
deriving DecidableEq, Repr

/-- `MenuItemCreate` from `main.py`: the request body for create and update
(no id, no imageUrl). -/
structure MenuItemCreate where
  name : String
  description : String
  price : Rat
  tags : List String
deriving DecidableEq, Repr

/-- The `HTTPException`s the menu handlers raise, plus the `NameError` the
update handler's rollback branch triggers by calling the undefined
`fetch_menu_data`. -/
inductive ApiError where
  | notFound
  | persistence
  | nameError
deriving DecidableEq, Repr

/-- HTTP status carried by each raised error (`NameError` escapes the
handler and surfaces as an internal server error). -/
def httpStatus : ApiError → Nat
  | .notFound => 404
  | .persistence => 500
  | .nameError => 500

/-- The ids of the items in the collection, in collection order. -/
def ids (menu : List MenuItem) : List Int :=
  menu.map (fun it => it.id)

/-- Python's builtin `max` over a nonempty list of ints (the empty case is
never reached by `create_menu_item`, which guards on `if menu_data`). -/
def pyListMax (l : List Int) : Int :=
  match l with
  | [] => 0
  | i :: is => is.foldl max i

/-- `max(i["id"] for i in menu_data) + 1 if menu_data else 1` from
`create_menu_item` (`main.py:210`). -/
def nextId (menu : List MenuItem) : Int :=
  if menu.isEmpty then 1 else pyListMax (menu.map (fun it => it.id)) + 1

/-- The item `create_menu_item` builds: next id, the request fields,
`imageUrl=None`. -/
def mkItem (newId : Int) (fields : MenuItemCreate) (img : Option String) : MenuItem :=
  { id := newId, name := fields.name, description := fields.description,
    price := fields.price, tags := fields.tags, imageUrl := img }

/-- `create_menu_item` (`main.py:206-222`): compute the next id, append the
new item to `menu_data`, then write `menu.json`; a failed write raises a 500
but the append is not rolled back. -/
def create_menu_item (menu : List MenuItem) (fields : MenuItemCreate)
    (writeOk : Bool) : List MenuItem × Except ApiError MenuItem :=
  let newItem := mkItem (nextId menu) fields none
  let menu2 := menu ++ [newItem]
  if writeOk then (menu2, .ok newItem) else (menu2, .error .persistence)

/-- The loop body of `update_menu_item` (`main.py:230-241`): replace the
first item whose id matches with the request fields, keeping the matched
item's id and imageUrl; `none` when no item matches. -/
def updateFirst (menu : List MenuItem) (itemId : Int) (fields : MenuItemCreate) :
    Option (List MenuItem × MenuItem) :=
  match menu with
  | [] => none
  | it :: rest =>
    if it.id = itemId then
      let updated := mkItem itemId fields it.imageUrl
      some (updated :: rest, updated)
    else
      match updateFirst rest itemId fields with
      | none => none
      | some (rest2, u) => some (it :: rest2, u)

/-- `update_menu_item` (`main.py:225-255`): 404 when the id is absent;
otherwise replace the matching item in place and write `menu.json`.  On a
failed write the except-branch calls `fetch_menu_data()`, a name defined
nowhere in the module, so a `NameError` escapes and the in-place mutation is
kept. -/
def update_menu_item (menu : List MenuItem) (itemId : Int)
    (fields : MenuItemCreate) (writeOk : Bool) :
    List MenuItem × Except ApiError MenuItem :=
  match updateFirst menu itemId fields with
  | none => (menu, .error .notFound)
  | some (menu2, updated) =>
    if writeOk then (menu2, .ok updated) else (menu2, .error .nameError)

/-- The loop body of `update_menu_item_image` (`main.py:190-195`): set the
imageUrl of the first item whose id matches; `none` when no item matches. -/
def setImageFirst (menu : List MenuItem) (itemId : Int) (url : String) :
    Option (List MenuItem) :=
  match menu with
  | [] => none
  | it :: rest =>
    if it.id = itemId then some ({ it with imageUrl := some url } :: rest)
    else
      match setImageFirst rest itemId url with
      | none => none
      | some rest2 => some (it :: rest2)

/-- `update_menu_item_image` (`main.py:187-203`): 404 when the id is absent
(no mutation happened); otherwise patch imageUrl in place and write
`menu.json`; a failed write raises a 500 with the in-place patch kept. -/
def update_menu_item_image (menu : List MenuItem) (itemId : Int) (url : String)
    (writeOk : Bool) : List MenuItem × Except ApiError Unit :=
  match setImageFirst menu itemId url with
  | none => (menu, .error .notFound)
  | some menu2 =>
    if writeOk then (menu2, .ok ()) else (menu2, .error .persistence)

/-- `delete_menu_item` (`main.py:257-277`): snapshot the collection, 404
when the id is absent, otherwise filter the id out and write `menu.json`;
on a failed write the snapshot is restored and a 500 raised. -/
def delete_menu_item (menu : List MenuItem) (itemId : Int) (writeOk : Bool) :
    List MenuItem × Except ApiError Unit :=
  match menu.find? (fun it => it.id = itemId) with
  | none => (menu, .error .notFound)
  | some _ =>
    let menu2 := menu.filter (fun it => it.id ≠ itemId)
    if writeOk then (menu2, .ok ()) else (menu, .error .persistence)

/-- `get_menu` (`main.py:183-185`): returns `menu_data` as-is. -/
def get_menu (menu : List MenuItem) : List MenuItem :=
  menu

/-- The condition of the backing file `menu.json` at module load. -/
inductive FileState where
  | missing
  | corrupt
  | wellFormed (items : List MenuItem)

/-- What `json.load` raises on a malformed file (a `ValueError` subclass,
not a `FileNotFoundError`). -/
inductive LoadError where
  | jsonDecodeError
deriving DecidableEq, Repr

/-- The module-load block of `main.py:171-176`: `open` + `json.load` inside
`try`, with `except FileNotFoundError` falling back to an empty menu.  A
malformed file raises `json.JSONDecodeError`, which the handler does not
catch. -/
def loadMenuData : FileState → Except LoadError (List MenuItem)
  | .missing => .ok []
  | .corrupt => .error .jsonDecodeError
  | .wellFormed items => .ok items

/-- All collections reachable from the empty store by the four mutating
endpoints (with the durable write succeeding or failing each time).  The
empty store is the state the process starts in when `menu.json` is
missing. -/
inductive Reachable : List MenuItem → Prop where
  | init : Reachable []
  | create {m} (h : Reachable m) (f : MenuItemCreate) (w : Bool) :
      Reachable (create_menu_item m f w).1
  | update {m} (h : Reachable m) (i : Int) (f : MenuItemCreate) (w : Bool) :
      Reachable (update_menu_item m i f w).1
  | image {m} (h : Reachable m) (i : Int) (u : String) (w : Bool) :
      Reachable (update_menu_item_image m i u w).1
  | delete {m} (h : Reachable m) (i : Int) (w : Bool) :
      Reachable (delete_menu_item m i w).1

/-- A chat message (`Message` model in `main.py`): role and content. -/
structure ChatMessage where
  role : String
  content : String
deriving DecidableEq, Repr

/-- The outcome of one external provider call: the reply text, or any
raised exception (network, auth, malformed response, missing client
class). -/
inductive ProviderOutcome where
  | success (text : String)
  | failure
deriving DecidableEq, Repr

/-- A provider's configuration: `none` when its credential environment
variable is unset; otherwise the behaviour of its external call as a
function of the message history. -/
def ProviderCfg : Type :=
  Option (List ChatMessage → ProviderOutcome)

/-- The generic per-provider error reply each `_get_*_response` helper
returns from its except-branch. -/
def errorReply : ChatMessage :=
  { role := "assistant",
    content := "Sorry, I encountered an error with the AI service." }

/-- The terminal fallback `chat` returns when every helper returned
`None`. -/
def configMissingReply : ChatMessage :=
  { role := "assistant",
    content := "Configuration missing. Please set GOOGLE_API_KEY, ANTHROPIC_API_KEY, or OPENAI_API_KEY in the backend environment." }

/-- `_get_gemini_response` (`main.py:321-341`): `None` when
`GOOGLE_API_KEY` is unset; otherwise the assistant reply on success, and on
any raised error the except-branch logs it and returns the generic error
reply (a truthy dict, not `None`). -/
def getGeminiResponse (cfg : ProviderCfg) (messages : List ChatMessage) :
    Option ChatMessage :=
  match cfg with
  | none => none
  | some call =>
    match call messages with
    | .success t => some { role := "assistant", content := t }
    | .failure => some errorReply

/-- `_get_anthropic_response` (`main.py:343-362`): same shape as the Gemini
helper, keyed on `ANTHROPIC_API_KEY`. -/
def getAnthropicResponse (cfg : ProviderCfg) (messages : List ChatMessage) :
    Option ChatMessage :=
  match cfg with
  | none => none
  | some call =>
    match call messages with
    | .success t => some { role := "assistant", content := t }
    | .failure => some errorReply

/-- `_get_openai_response` (`main.py:364-380`): same shape, keyed on
`OPENAI_API_KEY`. -/
def getOpenaiResponse (cfg : ProviderCfg) (messages : List ChatMessage) :
    Option ChatMessage :=
  match cfg with
  | none => none
  | some call =>
    match call messages with
    | .success t => some { role := "assistant", content := t }
    | .failure => some errorReply

/-- `chat` (`main.py:382-409`): try Gemini, then Anthropic, then OpenAI,
returning the first non-`None` helper result (`if response: return
response` — every returned dict is truthy), else the configuration-missing
fallback. -/
def chat (google anthropic openai : ProviderCfg)
    (messages : List ChatMessage) : ChatMessage :=
  match getGeminiResponse google messages with
  | some r => r
  | none =>
    match getAnthropicResponse anthropic messages with
    | some r => r
    | none =>
      match getOpenaiResponse openai messages with
      | some r => r
      | none => configMissingReply

/-- What `upload_file` did: stored a recompressed JPEG, stored the raw
bytes unchanged, or raised a 500. -/
inductive UploadOutcome where
  | compressedJpeg
  | rawStored
  | error500
deriving DecidableEq, Repr

/-- Python's `str.startswith`, spelled out over the character lists so that
it evaluates by kernel reduction. -/
def strStartsWith (s p : String) : Bool :=
  List.isPrefixOf p.data s.data

/-- The content-type family prefix tested by `file.content_type.startswith`
in `upload_file`. -/
def imageFamily : String := "image/"

/-- `upload_file` (`main.py:284-319`): when the content type starts with
`image/` and Pillow processing succeeds, a compressed JPEG is stored under
a random name; when Pillow raises, the error is logged and control falls
through to the raw-save path; when the content type is NOT in the image
family, no check rejects it — the raw bytes are stored under a random name
and a 200 response returned. -/
def upload_file (contentType : String) (imageProcessOk : Bool) : UploadOutcome :=
  if strStartsWith contentType imageFamily then
    if imageProcessOk then .compressedJpeg else .rawStored
  else .rawStored

/-- Number of files written to the uploads directory for each outcome. -/
def filesWritten : UploadOutcome → Nat
  | .compressedJpeg => 1
  | .rawStored => 1
  | .error500 => 0

/-- HTTP status returned for each upload outcome. -/
def uploadStatus : UploadOutcome → Nat
  | .compressedJpeg => 200
  | .rawStored => 200
  | .error500 => 500

/-- Fold a sequence of create requests (each with a successful durable
write) over a collection, as repeated calls to `create_menu_item`. -/
def createSeqFrom (menu : List MenuItem) (fs : List MenuItemCreate) :
    List MenuItem :=
  fs.foldl (fun m f => (create_menu_item m f true).1) menu

/-- A sequence of create requests applied to the empty store. -/
def createSeq (fs : List MenuItemCreate) : List MenuItem :=
  createSeqFrom [] fs

/-- The ids `1, 2, ..., n`. -/
def idRange (n : Nat) : List Int :=
  (List.range n).map (fun (k : Nat) => (k : Int) + 1)

/-- Concrete request fields used as witnesses (the repo's own test data from
`test_main.py`). -/
def sampleFields : MenuItemCreate :=
  { name := "Pytest Pizza", description := "A pizza for testing purposes.",
    price := (1337 : Rat) / 100, tags := ["test", "pizza"] }

/-- A second set of concrete request fields. -/
def sampleFields2 : MenuItemCreate :=
  { name := "Updated Pytest Pizza", description := "Updated description.",
    price := (9999 : Rat) / 100, tags := ["updated", "test"] }

/-- A concrete non-image content type. -/
def plainTextType : String := "text/plain"

/-- A concrete image URL. -/
def sampleUrl : String := "/uploads/abc.jpg"

/-- A concrete provider reply text. -/
def sampleReplyText : String := "We have pizza."

/-- A concrete two-item collection with distinct ids, used as a witness
store state. -/
def sampleMenu : List MenuItem :=
  [mkItem 1 sampleFields none, mkItem 2 sampleFields2 (some sampleUrl)]

/- ### Helper lemmas -/

theorem le_foldl_max_init (l : List Int) : ∀ a : Int, a ≤ l.foldl max a := by
  induction l with
  | nil => intro a; simp
  | cons x xs ih => intro a; exact le_trans (le_max_left a x) (ih (max a x))

theorem le_foldl_max_of_mem (l : List Int) :
    ∀ (a x : Int), x ∈ l → x ≤ l.foldl max a := by
  induction l with
  | nil => intro a x hx; simp at hx
  | cons y ys ih =>
    intro a x hx
    rcases List.mem_cons.mp hx with rfl | hx
    · exact le_trans (le_max_right a x) (le_foldl_max_init ys (max a x))
    · exact ih (max a y) x hx

theorem foldl_max_le (l : List Int) :
    ∀ a b : Int, a ≤ b → (∀ x ∈ l, x ≤ b) → l.foldl max a ≤ b := by
  induction l with
  | nil => intro a b hab _; simpa using hab
  | cons y ys ih =>
    intro a b hab h
    exact ih (max a y) b (max_le hab (h y (List.mem_cons_self y ys)))
      (fun x hx => h x (List.mem_cons_of_mem y hx))

theorem le_pyListMax (l : List Int) (x : Int) (hx : x ∈ l) : x ≤ pyListMax l := by
  cases l with
  | nil => simp at hx
  | cons y ys =>
    rcases List.mem_cons.mp hx with rfl | hx
    · exact le_foldl_max_init ys x
    · exact le_foldl_max_of_mem ys y x hx

theorem pyListMax_eq (l : List Int) (b : Int) (hb : b ∈ l)
    (hub : ∀ x ∈ l, x ≤ b) : pyListMax l = b := by
  refine le_antisymm ?_ (le_pyListMax l b hb)
  cases l with
  | nil => simp at hb
  | cons y ys =>
    exact foldl_max_le ys y b (hub y (List.mem_cons_self y ys))
      (fun x hx => hub x (List.mem_cons_of_mem y hx))

theorem ids_ne_nil_of_mem {m : List MenuItem} {x : Int} (hx : x ∈ ids m) :
    ¬ m.isEmpty := by
  cases m with
  | nil => simp [ids] at hx
  | cons it rest => simp

theorem lt_nextId (m : List MenuItem) (x : Int) (hx : x ∈ ids m) :
    x < nextId m := by
  unfold nextId
  rw [if_neg (ids_ne_nil_of_mem hx)]
  have hle : x ≤ pyListMax (m.map fun it => it.id) := le_pyListMax _ x hx
  omega

theorem mem_idRange_iff (n : Nat) (x : Int) :
    x ∈ idRange n ↔ ∃ k : Nat, k < n ∧ x = (k : Int) + 1 := by
  constructor
  · intro hx
    obtain ⟨k, hk, hkx⟩ := List.mem_map.mp hx
    exact ⟨k, List.mem_range.mp hk, hkx.symm⟩
  · rintro ⟨k, hk, rfl⟩
    exact List.mem_map.mpr ⟨k, List.mem_range.mpr hk, rfl⟩

theorem idRange_mem_le (n : Nat) (x : Int) (hx : x ∈ idRange n) : x ≤ (n : Int) := by
  obtain ⟨k, hk, rfl⟩ := (mem_idRange_iff n x).mp hx
  omega

theorem self_mem_idRange (n : Nat) (hn : 0 < n) : (n : Int) ∈ idRange n :=
  (mem_idRange_iff n n).mpr ⟨n - 1, by omega, by omega⟩

theorem idRange_zero : idRange 0 = [] := rfl

theorem idRange_succ (n : Nat) : idRange (n + 1) = idRange n ++ [(n : Int) + 1] := by
  simp [idRange, List.range_succ]

theorem nextId_idRange (m : List MenuItem) (n : Nat) (h : ids m = idRange n) :
    nextId m = (n : Int) + 1 := by
  cases n with
  | zero =>
    have hm : m = [] := by
      have : ids m = [] := by simpa [idRange] using h
      exact List.map_eq_nil_iff.mp this
    subst hm
    rfl
  | succ k =>
    have hmem : ((k + 1 : Nat) : Int) ∈ ids m := by
      rw [h]; exact self_mem_idRange (k + 1) (by omega)
    unfold nextId
    rw [if_neg (ids_ne_nil_of_mem hmem)]
    have hmax : pyListMax (m.map fun it => it.id) = ((k + 1 : Nat) : Int) := by
      refine pyListMax_eq _ _ hmem ?_
      intro x hx
      exact idRange_mem_le (k + 1) x (h ▸ hx)
    rw [hmax]

theorem ids_append_one (m : List MenuItem) (x : MenuItem) :
    ids (m ++ [x]) = ids m ++ [x.id] := by
  simp [ids]

theorem create_state (m : List MenuItem) (f : MenuItemCreate) (w : Bool) :
    (create_menu_item m f w).1 = m ++ [mkItem (nextId m) f none] := by
  cases w <;> rfl

theorem create_ok (m : List MenuItem) (f : MenuItemCreate) :
    create_menu_item m f true =
      (m ++ [mkItem (nextId m) f none], .ok (mkItem (nextId m) f none)) := rfl

theorem create_fail (m : List MenuItem) (f : MenuItemCreate) :
    create_menu_item m f false =
      (m ++ [mkItem (nextId m) f none], .error .persistence) := rfl

theorem update_state_none {m : List MenuItem} {i : Int} {f : MenuItemCreate}
    (h : updateFirst m i f = none) (w : Bool) :
    update_menu_item m i f w = (m, .error .notFound) := by
  simp [update_menu_item, h]

theorem update_state_some {m m2 : List MenuItem} {i : Int} {f : MenuItemCreate}
    {u : MenuItem} (h : updateFirst m i f = some (m2, u)) (w : Bool) :
    (update_menu_item m i f w).1 = m2 := by
  cases w <;> simp [update_menu_item, h]

theorem update_ok {m m2 : List MenuItem} {i : Int} {f : MenuItemCreate}
    {u : MenuItem} (h : updateFirst m i f = some (m2, u)) :
    update_menu_item m i f true = (m2, .ok u) := by
  simp [update_menu_item, h]

theorem image_state_none {m : List MenuItem} {i : Int} {u : String}
    (h : setImageFirst m i u = none) (w : Bool) :
    update_menu_item_image m i u w = (m, .error .notFound) := by
  simp [update_menu_item_image, h]

theorem image_state_some {m m2 : List MenuItem} {i : Int} {u : String}
    (h : setImageFirst m i u = some m2) (w : Bool) :
    (update_menu_item_image m i u w).1 = m2 := by
  cases w <;> simp [update_menu_item_image, h]

theorem image_ok {m m2 : List MenuItem} {i : Int} {u : String}
    (h : setImageFirst m i u = some m2) :
    update_menu_item_image m i u true = (m2, .ok ()) := by
  simp [update_menu_item_image, h]

theorem delete_state_none {m : List MenuItem} {i : Int}
    (h : List.find? (fun it => it.id = i) m = none) (w : Bool) :
    delete_menu_item m i w = (m, .error .notFound) := by
  simp [delete_menu_item, h]

theorem delete_ok {m : List MenuItem} {i : Int} {it : MenuItem}
    (h : List.find? (fun it => it.id = i) m = some it) :
    delete_menu_item m i true = (m.filter (fun x => x.id ≠ i), .ok ()) := by
  simp [delete_menu_item, h]

theorem delete_fail {m : List MenuItem} {i : Int} {it : MenuItem}
    (h : List.find? (fun it => it.id = i) m = some it) :
    delete_menu_item m i false = (m, .error .persistence) := by
  simp [delete_menu_item, h]

theorem updateFirst_ids (i : Int) (f : MenuItemCreate) (m : List MenuItem) :
    ∀ m2 u, updateFirst m i f = some (m2, u) → ids m2 = ids m := by
  induction m with
  | nil => intro m2 u h; simp [updateFirst] at h
  | cons it rest ih =>
    intro m2 u h
    by_cases hid : it.id = i
    · rw [updateFirst, if_pos hid] at h
      injection h with h
      rw [Prod.mk.injEq] at h
      obtain ⟨h1, h2⟩ := h
      subst h1
      simp [ids, mkItem, hid]
    · rw [updateFirst, if_neg hid] at h
      cases hrec : updateFirst rest i f with
      | none => rw [hrec] at h; cases h
      | some p =>
        obtain ⟨rest2, u0⟩ := p
        rw [hrec] at h
        injection h with h
        rw [Prod.mk.injEq] at h
        obtain ⟨h1, h2⟩ := h
        subst h1
        have hr := ih rest2 u0 hrec
        simp only [ids, List.map_cons] at hr ⊢
        rw [hr]

theorem setImageFirst_ids (i : Int) (u : String) (m : List MenuItem) :
    ∀ m2, setImageFirst m i u = some m2 → ids m2 = ids m := by
  induction m with
  | nil => intro m2 h; simp [setImageFirst] at h
  | cons it rest ih =>
    intro m2 h
    by_cases hid : it.id = i
    · rw [setImageFirst, if_pos hid] at h
      injection h with h
      subst h
      simp [ids]
    · rw [setImageFirst, if_neg hid] at h
      cases hrec : setImageFirst rest i u with
      | none => rw [hrec] at h; cases h
      | some rest2 =>
        rw [hrec] at h
        injection h with h
        subst h
        have hr := ih rest2 hrec
        simp only [ids, List.map_cons] at hr ⊢
        rw [hr]

theorem createSeqFrom_ids (fs : List MenuItemCreate) :
    ∀ (m : List MenuItem) (n : Nat), ids m = idRange n →
      ids (createSeqFrom m fs) = idRange (n + fs.length) := by
  induction fs with
  | nil => intro m n h; simpa [createSeqFrom] using h
  | cons f fs ih =>
    intro m n h
    have hstep : ids (create_menu_item m f true).1 = idRange (n + 1) := by
      rw [create_state, ids_append_one, h, idRange_succ]
      have hid : (mkItem (nextId m) f none).id = (n : Int) + 1 := by
        simpa [mkItem] using nextId_idRange m n h
      rw [hid]
    have := ih (create_menu_item m f true).1 (n + 1) hstep
    simpa [createSeqFrom, Nat.add_comm, Nat.add_assoc, Nat.add_left_comm] using this

/-- The ids of every reachable collection are strictly ascending (hence in
particular pairwise distinct). -/
theorem reachable_sorted {m : List MenuItem} (h : Reachable m) :
    List.Pairwise (fun a b : Int => a < b) (ids m) := by
  induction h with
  | init => simp [ids]
  | @create m0 h f w ih =>
    rw [create_state, ids_append_one, List.pairwise_append]
    refine ⟨ih, by simp, ?_⟩
    intro a ha b hb
    rw [List.mem_singleton] at hb
    subst hb
    simpa [mkItem] using lt_nextId m0 a ha
  | @update m0 h i f w ih =>
    cases hu : updateFirst m0 i f with
    | none => rw [update_state_none hu w]; exact ih
    | some p =>
      obtain ⟨m2, u⟩ := p
      rw [update_state_some hu w, updateFirst_ids i f m0 m2 u hu]
      exact ih
  | @image m0 h i u w ih =>
    cases hs : setImageFirst m0 i u with
    | none => rw [image_state_none hs w]; exact ih
    | some m2 =>
      rw [image_state_some hs w, setImageFirst_ids i u m0 m2 hs]
      exact ih
  | @delete m0 h i w ih =>
    cases hf : List.find? (fun it => it.id = i) m0 with
    | none => rw [delete_state_none hf w]; exact ih
    | some it =>
      cases w with
      | false => rw [delete_fail hf]; exact ih
      | true =>
        rw [delete_ok hf]
        have hsub : (ids (m0.filter (fun x => x.id ≠ i))).Sublist (ids m0) := by
          simp only [ids]
          exact List.Sublist.map _ (List.filter_sublist m0)
        exact ih.sublist hsub

theorem updateFirst_not_mem {i : Int} {f : MenuItemCreate} {m : List MenuItem}
    (h : i ∉ ids m) : updateFirst m i f = none := by
  induction m with
  | nil => rfl
  | cons it rest ih =>
    simp only [ids, List.map_cons, List.mem_cons, not_or] at h
    obtain ⟨h1, h2⟩ := h
    rw [updateFirst, if_neg (fun he => h1 he.symm), ih h2]

theorem setImageFirst_not_mem {i : Int} {u : String} {m : List MenuItem}
    (h : i ∉ ids m) : setImageFirst m i u = none := by
  induction m with
  | nil => rfl
  | cons it rest ih =>
    simp only [ids, List.map_cons, List.mem_cons, not_or] at h
    obtain ⟨h1, h2⟩ := h
    rw [setImageFirst, if_neg (fun he => h1 he.symm), ih h2]

theorem updateFirst_spec (i : Int) (f : MenuItemCreate) (m : List MenuItem)
    (hmem : i ∈ ids m) :
    ∃ pre old post,
      m = pre ++ old :: post ∧ old.id = i ∧ (∀ x ∈ pre, x.id ≠ i) ∧
      updateFirst m i f =
        some (pre ++ mkItem i f old.imageUrl :: post, mkItem i f old.imageUrl) := by
  induction m with
  | nil => simp [ids] at hmem
  | cons it rest ih =>
    by_cases hid : it.id = i
    · refine ⟨[], it, rest, rfl, hid, by simp, ?_⟩
      rw [updateFirst, if_pos hid]
      rfl
    · have hmem2 : i ∈ ids rest := by
        simp only [ids, List.map_cons, List.mem_cons] at hmem
        rcases hmem with he | hr
        · exact absurd he.symm hid
        · exact hr
      obtain ⟨pre, old, post, hdecomp, hold, hpre, heq⟩ := ih hmem2
      refine ⟨it :: pre, old, post, by rw [List.cons_append, hdecomp], hold, ?_, ?_⟩
      · intro x hx
        rcases List.mem_cons.mp hx with rfl | hx
        · exact hid
        · exact hpre x hx
      · rw [updateFirst, if_neg hid, heq]
        rfl

theorem setImageFirst_spec (i : Int) (u : String) (m : List MenuItem)
    (hmem : i ∈ ids m) :
    ∃ pre old post,
      m = pre ++ old :: post ∧ old.id = i ∧ (∀ x ∈ pre, x.id ≠ i) ∧
      setImageFirst m i u =
        some (pre ++ { old with imageUrl := some u } :: post) := by
  induction m with
  | nil => simp [ids] at hmem
  | cons it rest ih =>
    by_cases hid : it.id = i
    · refine ⟨[], it, rest, rfl, hid, by simp, ?_⟩
      rw [setImageFirst, if_pos hid]
      rfl
    · have hmem2 : i ∈ ids rest := by
        simp only [ids, List.map_cons, List.mem_cons] at hmem
        rcases hmem with he | hr
        · exact absurd he.symm hid
        · exact hr
      obtain ⟨pre, old, post, hdecomp, hold, hpre, heq⟩ := ih hmem2
      refine ⟨it :: pre, old, post, by rw [List.cons_append, hdecomp], hold, ?_, ?_⟩
      · intro x hx
        rcases List.mem_cons.mp hx with rfl | hx
        · exact hid
        · exact hpre x hx
      · rw [setImageFirst, if_neg hid, heq]
        rfl

theorem find?_none_of_not_mem {m : List MenuItem} {i : Int} (h : i ∉ ids m) :
    List.find? (fun it => it.id = i) m = none := by
  rw [List.find?_eq_none]
  intro x hx
  simp only [decide_eq_true_eq]
  intro hxi
  exact h (hxi ▸ List.mem_map_of_mem (fun it => it.id) hx)

theorem find?_some_of_mem {m : List MenuItem} {i : Int} (h : i ∈ ids m) :
    ∃ it, List.find? (fun it => it.id = i) m = some it := by
  obtain ⟨x, hx, hxi⟩ := List.mem_map.mp h
  have hs : (List.find? (fun it => it.id = i) m).isSome := by
    rw [List.find?_isSome]
    exact ⟨x, hx, by simpa using hxi⟩
  exact Option.isSome_iff_exists.mp hs

theorem nodup_ne_of_decomp {pre post : List MenuItem} {old : MenuItem} {i : Int}
    (hN : (ids (pre ++ old :: post)).Nodup) (hold : old.id = i) :
    ∀ x ∈ pre ++ post, x.id ≠ i := by
  simp only [ids, List.map_append, List.map_cons] at hN
  rw [List.nodup_append] at hN
  obtain ⟨hN1, hN2, hdisj⟩ := hN
  rw [List.nodup_cons] at hN2
  obtain ⟨hnotin, hN2⟩ := hN2
  intro x hx hxi
  rcases List.mem_append.mp hx with hx | hx
  · exact hdisj (List.mem_map_of_mem (fun it => it.id) hx)
      (by rw [hxi, ← hold]; exact List.mem_cons_self _ _)
  · exact hnotin (by rw [hold, ← hxi]; exact List.mem_map_of_mem (fun it => it.id) hx)

theorem filter_decomp {pre post : List MenuItem} {old : MenuItem} {i : Int}
    (hold : old.id = i) (hne : ∀ x ∈ pre ++ post, x.id ≠ i) :
    (pre ++ old :: post).filter (fun x => x.id ≠ i) = pre ++ post := by
  have hpre : pre.filter (fun x => x.id ≠ i) = pre :=
    List.filter_eq_self.mpr
      (fun x hx => by simpa using hne x (List.mem_append_left _ hx))
  have hpost : post.filter (fun x => x.id ≠ i) = post :=
    List.filter_eq_self.mpr
      (fun x hx => by simpa using hne x (List.mem_append_right _ hx))
  simp only [decide_not] at hpre hpost
  simp [List.filter_append, List.filter_cons, hold, hpre, hpost]

/- ### Claim theorems -/

/-- C1 counterexample: an id removed by delete CAN be assigned again by a
later create.  Concretely: the first create on the empty store assigns id 1;
deleting item 1 empties the store; the next create assigns id 1 again. -/
theorem create_id_reuse_after_delete_cex :
    (create_menu_item [] sampleFields true).2 = .ok (mkItem 1 sampleFields none) ∧
    delete_menu_item (create_menu_item [] sampleFields true).1 1 true = ([], .ok ()) ∧
    (create_menu_item
        (delete_menu_item (create_menu_item [] sampleFields true).1 1 true).1
        sampleFields true).2 = .ok (mkItem 1 sampleFields none) :=
  ⟨rfl, rfl, rfl⟩

/-- C1 (amended): for every sequence of create operations starting from an
empty store, the ids assigned are 1, 2, 3, ... in creation order; each new
id is max(existing ids) + 1 (or 1 if the collection is empty) regardless of
deletion history, so an id removed by delete can be reassigned by a later
create whenever it exceeds the remaining maximum. -/
theorem create_ids_sequential :
    (∀ fs : List MenuItemCreate, ids (createSeq fs) = idRange fs.length) ∧
    (∀ (m : List MenuItem) (f : MenuItemCreate),
        create_menu_item m f true =
          (m ++ [mkItem (nextId m) f none], .ok (mkItem (nextId m) f none))) := by
  constructor
  · intro fs
    have h := createSeqFrom_ids fs [] 0 rfl
    simpa [createSeq] using h
  · intro m f
    exact create_ok m f

/-- C2 counterexample: with Gemini configured and raising, and Anthropic
configured and succeeding, `chat` returns the per-provider generic error
reply — it does not fall through to Anthropic; with Gemini as the only
configured provider, a raising call yields the generic error reply, not the
terminal configuration-missing fallback. -/
theorem chat_failure_cex :
    chat (some (fun _ => ProviderOutcome.failure))
        (some (fun _ => ProviderOutcome.success sampleReplyText)) none []
      = errorReply ∧
    chat (some (fun _ => ProviderOutcome.failure)) none none [] = errorReply ∧
    errorReply ≠ configMissingReply ∧
    errorReply ≠ { role := "assistant", content := sampleReplyText } := by
  refine ⟨rfl, rfl, ?_, ?_⟩ <;> decide

/-- C2 (amended): when a configured provider's call raises, the helper
catches the exception (no escalation, no retry) and `chat` returns the
generic error reply immediately, without trying the remaining providers and
without reaching the terminal configuration-missing fallback. -/
theorem chat_provider_error_not_escalated (messages : List ChatMessage)
    (anthropic openai : ProviderCfg)
    (call : List ChatMessage → ProviderOutcome)
    (hfail : ∀ ms, call ms = .failure) :
    chat (some call) anthropic openai messages = errorReply := by
  have h1 : getGeminiResponse (some call) messages = some errorReply := by
    unfold getGeminiResponse
    dsimp only
    rw [hfail]
  unfold chat
  rw [h1]

/-- Witness for `chat_provider_error_not_escalated` at a concrete
always-raising provider. -/
theorem chat_provider_error_not_escalated_witness :
    chat (some (fun _ => ProviderOutcome.failure)) none none [] = errorReply :=
  chat_provider_error_not_escalated [] none none
    (fun _ => ProviderOutcome.failure) (fun _ => rfl)

/-- C3 counterexample: a corrupt `menu.json` does NOT degrade to an empty
collection — only `FileNotFoundError` is caught, so the JSON decode error
propagates out of the load. -/
theorem load_corrupt_cex :
    loadMenuData .corrupt = .error .jsonDecodeError ∧
    loadMenuData .corrupt ≠ .ok [] := by
  refine ⟨rfl, ?_⟩
  intro h
  exact Except.noConfusion h

/-- C3 (amended): if `menu.json` is missing, the menu loads as the empty
collection with no error (and listing it yields the empty sequence); if it
is corrupt, the JSON decode error is raised rather than degrading to an
empty collection. -/
theorem loadMenuData_spec :
    loadMenuData .missing = .ok [] ∧ get_menu [] = [] ∧
    loadMenuData .corrupt = .error .jsonDecodeError :=
  ⟨rfl, rfl, rfl⟩

/-- C4: in a store with unique ids, `update(id, fields)` on a present id
fully replaces that item's name, description, price and tags with the given
fields, preserves the item's id and existing imageUrl, leaves every other
item in place, and returns the updated item; on an absent id it fails with
not-found (HTTP 404) and the collection is unchanged. -/
theorem update_menu_item_spec (m : List MenuItem) (i : Int) (f : MenuItemCreate)
    (hN : (ids m).Nodup) :
    (i ∈ ids m →
      ∃ pre old post,
        m = pre ++ old :: post ∧ old.id = i ∧
        (∀ x ∈ pre ++ post, x.id ≠ i) ∧
        update_menu_item m i f true =
          (pre ++ mkItem i f old.imageUrl :: post, .ok (mkItem i f old.imageUrl)))
  ∧ (i ∉ ids m → ∀ w,
      update_menu_item m i f w = (m, .error .notFound) ∧
      httpStatus .notFound = 404) := by
  constructor
  · intro hmem
    obtain ⟨pre, old, post, hdecomp, hold, hpre, heq⟩ := updateFirst_spec i f m hmem
    exact ⟨pre, old, post, hdecomp, hold,
      nodup_ne_of_decomp (hdecomp ▸ hN) hold, update_ok heq⟩
  · intro hmem w
    exact ⟨update_state_none (updateFirst_not_mem hmem) w, rfl⟩

/-- Witness for `update_menu_item_spec` on the concrete two-item store:
updating present id 1 and updating absent id 5. -/
theorem update_menu_item_spec_witness :
    (∃ pre old post,
        sampleMenu = pre ++ old :: post ∧ old.id = 1 ∧
        (∀ x ∈ pre ++ post, x.id ≠ 1) ∧
        update_menu_item sampleMenu 1 sampleFields2 true =
          (pre ++ mkItem 1 sampleFields2 old.imageUrl :: post,
           .ok (mkItem 1 sampleFields2 old.imageUrl))) ∧
    update_menu_item sampleMenu 5 sampleFields2 true =
      (sampleMenu, .error .notFound) :=
  ⟨(update_menu_item_spec sampleMenu 1 sampleFields2 (by decide)).1 (by decide),
   ((update_menu_item_spec sampleMenu 5 sampleFields2 (by decide)).2
      (by decide) true).1⟩

/-- C5: in a store with unique ids, `update_image(id, url)` on a present id
changes only that item's imageUrl field to the url — its id, name,
description, price and tags, and every other item, are unchanged (for any
write outcome); on an absent id it fails with not-found (HTTP 404) and the
collection is unchanged. -/
theorem update_menu_item_image_spec (m : List MenuItem) (i : Int) (u : String)
    (hN : (ids m).Nodup) :
    (i ∈ ids m →
      ∃ pre old post,
        m = pre ++ old :: post ∧ old.id = i ∧
        (∀ x ∈ pre ++ post, x.id ≠ i) ∧
        (∀ w, (update_menu_item_image m i u w).1 =
            pre ++ { old with imageUrl := some u } :: post) ∧
        update_menu_item_image m i u true =
          (pre ++ { old with imageUrl := some u } :: post, .ok ()))
  ∧ (i ∉ ids m → ∀ w,
      update_menu_item_image m i u w = (m, .error .notFound) ∧
      httpStatus .notFound = 404) := by
  constructor
  · intro hmem
    obtain ⟨pre, old, post, hdecomp, hold, hpre, heq⟩ := setImageFirst_spec i u m hmem
    exact ⟨pre, old, post, hdecomp, hold,
      nodup_ne_of_decomp (hdecomp ▸ hN) hold,
      fun w => image_state_some heq w, image_ok heq⟩
  · intro hmem w
    exact ⟨image_state_none (setImageFirst_not_mem hmem) w, rfl⟩

/-- Witness for `update_menu_item_image_spec` on the concrete two-item
store: patching present id 2 and patching absent id 5. -/
theorem update_menu_item_image_spec_witness :
    (∃ pre old post,
        sampleMenu = pre ++ old :: post ∧ old.id = 2 ∧
        (∀ x ∈ pre ++ post, x.id ≠ 2) ∧
        (∀ w, (update_menu_item_image sampleMenu 2 sampleUrl w).1 =
            pre ++ { old with imageUrl := some sampleUrl } :: post) ∧
        update_menu_item_image sampleMenu 2 sampleUrl true =
          (pre ++ { old with imageUrl := some sampleUrl } :: post, .ok ())) ∧
    update_menu_item_image sampleMenu 5 sampleUrl true =
      (sampleMenu, .error .notFound) :=
  ⟨(update_menu_item_image_spec sampleMenu 2 sampleUrl (by decide)).1 (by decide),
   ((update_menu_item_image_spec sampleMenu 5 sampleUrl (by decide)).2
      (by decide) true).1⟩

/-- C6: in a store with unique ids, `delete(id)` on a present id removes
exactly that item (a subsequent `list_all` contains no item with the id);
on an absent id it fails with not-found (HTTP 404) leaving the collection
unchanged; and when the durable write fails the in-memory collection is
restored to its pre-mutation snapshot and a persistence error (HTTP 500)
is surfaced. -/
theorem delete_menu_item_spec (m : List MenuItem) (i : Int)
    (hN : (ids m).Nodup) :
    (i ∈ ids m →
      ∃ pre old post,
        m = pre ++ old :: post ∧ old.id = i ∧
        (∀ x ∈ pre ++ post, x.id ≠ i) ∧
        delete_menu_item m i true = (pre ++ post, .ok ()) ∧
        i ∉ ids (get_menu (delete_menu_item m i true).1) ∧
        delete_menu_item m i false = (m, .error .persistence) ∧
        httpStatus .persistence = 500)
  ∧ (i ∉ ids m → ∀ w,
      delete_menu_item m i w = (m, .error .notFound) ∧
      httpStatus .notFound = 404) := by
  constructor
  · intro hmem
    obtain ⟨x, hx, hxi⟩ := List.mem_map.mp hmem
    obtain ⟨it0, hfind⟩ := find?_some_of_mem hmem
    obtain ⟨pre, post, hdecomp⟩ := List.append_of_mem hx
    have hne := nodup_ne_of_decomp (hdecomp ▸ hN) hxi
    have hfilter : m.filter (fun y => y.id ≠ i) = pre ++ post := by
      rw [hdecomp]
      exact filter_decomp hxi hne
    refine ⟨pre, x, post, hdecomp, hxi, hne, ?_, ?_, delete_fail hfind, rfl⟩
    · rw [delete_ok hfind, hfilter]
    · rw [delete_ok hfind]
      show i ∉ ids (m.filter (fun y => y.id ≠ i))
      rw [hfilter]
      intro hcon
      obtain ⟨y, hy, hyi⟩ := List.mem_map.mp hcon
      exact hne y hy hyi
  · intro hmem w
    exact ⟨delete_state_none (find?_none_of_not_mem hmem) w, rfl⟩

/-- Witness for `delete_menu_item_spec` on the concrete two-item store:
deleting present id 2 and deleting absent id 5. -/
theorem delete_menu_item_spec_witness :
    (∃ pre old post,
        sampleMenu = pre ++ old :: post ∧ old.id = 2 ∧
        (∀ x ∈ pre ++ post, x.id ≠ 2) ∧
        delete_menu_item sampleMenu 2 true = (pre ++ post, .ok ()) ∧
        (2 : Int) ∉ ids (get_menu (delete_menu_item sampleMenu 2 true).1) ∧
        delete_menu_item sampleMenu 2 false = (sampleMenu, .error .persistence) ∧
        httpStatus .persistence = 500) ∧
    delete_menu_item sampleMenu 5 true = (sampleMenu, .error .notFound) :=
  ⟨(delete_menu_item_spec sampleMenu 2 (by decide)).1 (by decide),
   ((delete_menu_item_spec sampleMenu 5 (by decide)).2 (by decide) true).1⟩

/-- C7: with none of GOOGLE_API_KEY, ANTHROPIC_API_KEY, OPENAI_API_KEY
configured, every helper returns `None`, so for every input message
sequence `chat` returns the fixed configuration-missing fallback message,
whose role is "assistant". -/
theorem chat_no_provider_configured (messages : List ChatMessage) :
    chat none none none messages = configMissingReply ∧
    configMissingReply.role = "assistant" :=
  ⟨rfl, rfl⟩

/-- C8 counterexample: an upload with non-image content type `text/plain`
is NOT rejected with HTTP 400 — the raw file is stored (one file written)
and HTTP 200 returned. -/
theorem upload_nonimage_cex :
    upload_file plainTextType true = .rawStored ∧
    uploadStatus (upload_file plainTextType true) = 200 ∧
    filesWritten (upload_file plainTextType true) = 1 ∧
    uploadStatus (upload_file plainTextType true) ≠ 400 := by
  refine ⟨rfl, rfl, rfl, ?_⟩
  decide

/-- C8 (amended): for every upload whose content type is not in the image
family, the handler performs no rejection: the raw bytes are stored under a
generated filename (one file written) and HTTP 200 is returned. -/
theorem upload_nonimage_stored (ct : String) (ok : Bool)
    (h : ¬ strStartsWith ct imageFamily) :
    upload_file ct ok = .rawStored ∧
    uploadStatus (upload_file ct ok) = 200 ∧
    filesWritten (upload_file ct ok) = 1 := by
  have hb : strStartsWith ct imageFamily = false := by
    cases hsw : strStartsWith ct imageFamily
    · rfl
    · exact absurd hsw h
  unfold upload_file
  rw [hb]
  exact ⟨rfl, rfl, rfl⟩

/-- Witness for `upload_nonimage_stored` at content type `text/plain`. -/
theorem upload_nonimage_stored_witness :
    upload_file plainTextType true = .rawStored ∧
    uploadStatus (upload_file plainTextType true) = 200 ∧
    filesWritten (upload_file plainTextType true) = 1 :=
  upload_nonimage_stored plainTextType true (by decide)

/-- C9: in every store state reachable from the empty store by the four
mutating endpoints, `list_all` (the GET /menu handler) returns the full
current collection, its ids are in strictly ascending order, and calling it
twice with no intervening mutation returns identical results. -/
theorem get_menu_spec (m : List MenuItem) (h : Reachable m) :
    get_menu m = m ∧
    List.Pairwise (fun a b : Int => a < b) (ids (get_menu m)) ∧
    get_menu m = get_menu m :=
  ⟨rfl, reachable_sorted h, rfl⟩

/-- Witness for `get_menu_spec` at the concrete reachable one-item state
produced by one create on the empty store. -/
theorem get_menu_spec_witness :
    get_menu [mkItem 1 sampleFields none] = [mkItem 1 sampleFields none] ∧
    List.Pairwise (fun a b : Int => a < b)
      (ids (get_menu [mkItem 1 sampleFields none])) ∧
    get_menu [mkItem 1 sampleFields none] = get_menu [mkItem 1 sampleFields none] :=
  get_menu_spec [mkItem 1 sampleFields none]
    (Reachable.create Reachable.init sampleFields true)

/-- C10: when the durable write fails during create, the handler raises a
persistence error (HTTP 500) but performs no rollback: the in-memory
collection still ends with the newly appended item, so a subsequent
`list_all` in the same process includes an item that was never persisted. -/
theorem create_write_failure_keeps_item (m : List MenuItem) (f : MenuItemCreate) :
    create_menu_item m f false =
      (m ++ [mkItem (nextId m) f none], .error .persistence) ∧
    mkItem (nextId m) f none ∈ get_menu (create_menu_item m f false).1 ∧
    httpStatus .persistence = 500 := by
  refine ⟨create_fail m f, ?_, rfl⟩
  rw [create_state]
  show mkItem (nextId m) f none ∈ m ++ [mkItem (nextId m) f none]
  exact List.mem_append_right m (List.mem_singleton_self _)

end Tastegent
